import Mathlib

set_option autoImplicit false

/-!
Verification of the security core of the fastify-mcp-server boilerplate:
rate limiting, input/path/URL validation, bearer-token authentication,
origin enforcement, audit logging and the fixed-order middleware chain.
Each definition is a shallow embedding of the corresponding TypeScript
function; times are milliseconds since the epoch as natural numbers.
-/

/-- One entry of the rate-limit map: `{count, resetTime}` from `security.ts`. -/
structure RateLimitEntry where
  count : Nat
  resetTime : Nat
deriving Repr, DecidableEq

/-- The module-level `rateLimitMap : Map<string, {count, resetTime}>`,
modelled as a partial function from identifiers to entries. -/
def RateLimitMap : Type := String → Option RateLimitEntry

/-- A fully absent map: the state at process startup. -/
def RateLimitMap.empty : RateLimitMap := fun _ => none

/-- `rateLimitMap.set(identifier, e)`. -/
def RateLimitMap.set (m : RateLimitMap) (k : String) (e : RateLimitEntry) : RateLimitMap :=
  fun k2 => if k2 = k then some e else m k2

/-- `checkRateLimit(identifier, maxRequests, windowMs)` from `security.ts`,
with the ambient `Date.now()` passed explicitly as `now` and the map state
threaded through.  Mirrors the source: a missing or expired entry is
replaced by `{count: 1, resetTime: now + windowMs}` and the call is
admitted; otherwise a count at or above `maxRequests` denies, and any
lower count is incremented in place and admitted. -/
def checkRateLimit (m : RateLimitMap) (now : Nat) (identifier : String)
    (maxRequests : Nat) (windowMs : Nat) : Bool × RateLimitMap :=
  match m identifier with
  | none => (true, m.set identifier ⟨1, now + windowMs⟩)
  | some current =>
      if now > current.resetTime then
        (true, m.set identifier ⟨1, now + windowMs⟩)
      else if current.count ≥ maxRequests then
        (false, m)
      else
        (true, m.set identifier ⟨current.count + 1, current.resetTime⟩)

/-- `cleanupRateLimit()` from `security.ts`: drop every entry whose window
has expired (`now > resetTime`). -/
def cleanupRateLimit (m : RateLimitMap) (now : Nat) : RateLimitMap :=
  fun k =>
    match m k with
    | none => none
    | some e => if now > e.resetTime then none else some e

/-- Run a sequence of `checkRateLimit` calls at the given times for a fixed
identifier, returning the list of admit/deny results and the final map. -/
def runCalls (m : RateLimitMap) (identifier : String) (maxRequests windowMs : Nat) :
    List Nat → List Bool × RateLimitMap
  | [] => ([], m)
  | t :: ts =>
      let r := checkRateLimit m t identifier maxRequests windowMs
      let rest := runCalls r.2 identifier maxRequests windowMs ts
      (r.1 :: rest.1, rest.2)

lemma RateLimitMap.set_self (m : RateLimitMap) (k : String) (e : RateLimitEntry) :
    m.set k e k = some e := by
  simp [RateLimitMap.set]

lemma checkRateLimit_live_allow (m : RateLimitMap) (identifier : String)
    (c r t maxR wm : Nat) (hm : m identifier = some ⟨c, r⟩)
    (ht : t ≤ r) (hc : c < maxR) :
    checkRateLimit m t identifier maxR wm = (true, m.set identifier ⟨c + 1, r⟩) := by
  simp [checkRateLimit, hm, Nat.not_lt.mpr ht, Nat.not_le.mpr hc]

lemma checkRateLimit_live_deny (m : RateLimitMap) (identifier : String)
    (c r t maxR wm : Nat) (hm : m identifier = some ⟨c, r⟩)
    (ht : t ≤ r) (hc : maxR ≤ c) :
    checkRateLimit m t identifier maxR wm = (false, m) := by
  simp [checkRateLimit, hm, Nat.not_lt.mpr ht, hc]

lemma checkRateLimit_fresh (m : RateLimitMap) (identifier : String) (t maxR wm : Nat)
    (h : m identifier = none ∨ ∃ e, m identifier = some e ∧ e.resetTime < t) :
    checkRateLimit m t identifier maxR wm = (true, m.set identifier ⟨1, t + wm⟩) := by
  rcases h with h | ⟨e, he, hlt⟩
  · simp [checkRateLimit, h]
  · simp [checkRateLimit, he, hlt]

lemma runCalls_within (identifier : String) (maxR wm r0 : Nat) :
    ∀ (ts : List Nat) (m : RateLimitMap) (c : Nat),
      m identifier = some ⟨c, r0⟩ → (∀ t ∈ ts, t ≤ r0) → c + ts.length ≤ maxR →
      (runCalls m identifier maxR wm ts).1 = List.replicate ts.length true ∧
      (runCalls m identifier maxR wm ts).2 identifier = some ⟨c + ts.length, r0⟩ := by
  intro ts
  induction ts with
  | nil =>
      intro m c hm _ _
      simpa [runCalls] using hm
  | cons t ts ih =>
      intro m c hm hin hle
      have hL : (t :: ts).length = ts.length + 1 := List.length_cons t ts
      have hc : c < maxR := by omega
      have hstep := checkRateLimit_live_allow m identifier c r0 t maxR wm hm
        (hin t (List.mem_cons_self t ts)) hc
      have hm2 : (m.set identifier ⟨c + 1, r0⟩) identifier = some ⟨c + 1, r0⟩ :=
        RateLimitMap.set_self m identifier _
      have hin2 : ∀ u ∈ ts, u ≤ r0 := fun u hu => hin u (List.mem_cons_of_mem t hu)
      have hle2 : (c + 1) + ts.length ≤ maxR := by omega
      have hrec := ih (m.set identifier ⟨c + 1, r0⟩) (c + 1) hm2 hin2 hle2
      have hlen : c + (t :: ts).length = (c + 1) + ts.length := by omega
      constructor
      · simp [runCalls, hstep, hrec.1, List.replicate_succ]
      · rw [hlen]
        simpa [runCalls, hstep] using hrec.2

/-- C1: for every identifier and `maxRequests = N ≥ 1`, starting with no live
entry, the first `N` calls within the window are admitted, the `(N+1)`-th call
within the same window is denied (leaving the map unchanged), and a call after
the window's `resetTime` has passed is admitted again with a fresh entry of
count 1. -/
theorem checkRateLimit_window_policy (identifier : String) (N wm : Nat)
    (m0 : RateLimitMap) (hm0 : m0 identifier = none)
    (t0 : Nat) (ts : List Nat) (hlen : ts.length + 1 = N)
    (hts : ∀ t ∈ ts, t ≤ t0 + wm)
    (tDeny : Nat) (hDeny : tDeny ≤ t0 + wm)
    (tFresh : Nat) (hFresh : t0 + wm < tFresh) :
    (runCalls m0 identifier N wm (t0 :: ts)).1 = List.replicate N true ∧
    checkRateLimit (runCalls m0 identifier N wm (t0 :: ts)).2 tDeny identifier N wm
      = (false, (runCalls m0 identifier N wm (t0 :: ts)).2) ∧
    (checkRateLimit (runCalls m0 identifier N wm (t0 :: ts)).2 tFresh identifier N wm).1
      = true ∧
    (checkRateLimit (runCalls m0 identifier N wm (t0 :: ts)).2 tFresh identifier N wm).2
      identifier = some ⟨1, tFresh + wm⟩ := by
  have hstep : checkRateLimit m0 t0 identifier N wm
      = (true, m0.set identifier ⟨1, t0 + wm⟩) :=
    checkRateLimit_fresh m0 identifier t0 N wm (Or.inl hm0)
  have hm1 : (m0.set identifier ⟨1, t0 + wm⟩) identifier = some ⟨1, t0 + wm⟩ :=
    RateLimitMap.set_self m0 identifier _
  have hle : 1 + ts.length ≤ N := by omega
  have hrec := runCalls_within identifier N wm (t0 + wm) ts
    (m0.set identifier ⟨1, t0 + wm⟩) 1 hm1 hts hle
  have hfin : (runCalls m0 identifier N wm (t0 :: ts)).2 identifier
      = some ⟨1 + ts.length, t0 + wm⟩ := by
    simpa [runCalls, hstep] using hrec.2
  have hres : (runCalls m0 identifier N wm (t0 :: ts)).1 = List.replicate N true := by
    have : (runCalls m0 identifier N wm (t0 :: ts)).1
        = true :: List.replicate ts.length true := by
      simp [runCalls, hstep, hrec.1]
    rw [this, ← hlen, List.replicate_succ]
  have hNle : N ≤ 1 + ts.length := by omega
  have hdeny := checkRateLimit_live_deny _ identifier (1 + ts.length) (t0 + wm) tDeny N wm
    hfin hDeny hNle
  have hfresh := checkRateLimit_fresh (runCalls m0 identifier N wm (t0 :: ts)).2
    identifier tFresh N wm (Or.inr ⟨⟨1 + ts.length, t0 + wm⟩, hfin, hFresh⟩)
  refine ⟨hres, hdeny, ?_, ?_⟩
  · rw [hfresh]
  · rw [hfresh]
    exact RateLimitMap.set_self _ identifier _

/-- Witness for C1 at identifier "a", N = 2, window 100ms, calls at 0 and 10,
a denied third call at 50 and a fresh admitted call at 200. -/
theorem checkRateLimit_window_policy_witness :
    RateLimitMap.empty "a" = none ∧
    ((runCalls RateLimitMap.empty "a" 2 100 [0, 10]).1 = List.replicate 2 true ∧
     checkRateLimit (runCalls RateLimitMap.empty "a" 2 100 [0, 10]).2 50 "a" 2 100
       = (false, (runCalls RateLimitMap.empty "a" 2 100 [0, 10]).2) ∧
     (checkRateLimit (runCalls RateLimitMap.empty "a" 2 100 [0, 10]).2 200 "a" 2 100).1
       = true ∧
     (checkRateLimit (runCalls RateLimitMap.empty "a" 2 100 [0, 10]).2 200 "a" 2 100).2
       "a" = some ⟨1, 300⟩) :=
  ⟨rfl, checkRateLimit_window_policy "a" 2 100 RateLimitMap.empty rfl 0 [10] rfl
    (by decide) 50 (by decide) 200 (by decide)⟩

/-- C10: whenever the identifier has no live entry (absent, or expired with
`now > resetTime`), the call is admitted and the entry replaced by
`{count: 1, resetTime: now + windowMs}` before the count is ever compared
with `maxRequests`; in particular this holds for `maxRequests = 0`. -/
theorem checkRateLimit_fresh_first_call (m : RateLimitMap) (now : Nat)
    (identifier : String) (maxRequests wm : Nat)
    (h : m identifier = none ∨ ∃ e, m identifier = some e ∧ e.resetTime < now) :
    (checkRateLimit m now identifier maxRequests wm).1 = true ∧
    (checkRateLimit m now identifier maxRequests wm).2 identifier
      = some ⟨1, now + wm⟩ := by
  have hf := checkRateLimit_fresh m identifier now maxRequests wm h
  refine ⟨by rw [hf], ?_⟩
  rw [hf]
  exact RateLimitMap.set_self m identifier _

/-- Witness for C10 with `maxRequests = 0` on an empty map. -/
theorem checkRateLimit_fresh_first_call_witness :
    RateLimitMap.empty "x" = none ∧
    (checkRateLimit RateLimitMap.empty 5 "x" 0 60000).1 = true ∧
    (checkRateLimit RateLimitMap.empty 5 "x" 0 60000).2 "x" = some ⟨1, 60005⟩ :=
  ⟨rfl, checkRateLimit_fresh_first_call RateLimitMap.empty 5 "x" 0 60000 (Or.inl rfl)⟩

/-- JS word characters, the `\w` class `[A-Za-z0-9_]`. -/
def isWordChar (c : Char) : Bool := c.isAlpha || c.isDigit || c == '_'

/-- Character class of the first denylist regex of `DANGEROUS_PATTERNS`
(shell metacharacters). -/
def shellMetaChars : List Char :=
  [';', '&', '|', Char.ofNat 96, '$', '(', ')', Char.ofNat 123, Char.ofNat 125,
   '[', ']', '\\']

/-- Case-insensitive (ASCII) match of a lowercase keyword against the front
of a character list. -/
def ciMatchesFront : List Char → List Char → Bool
  | [], _ => true
  | _ :: _, [] => false
  | k :: ks, c :: cs => (c.toLower == k) && ciMatchesFront ks cs

/-- Position `j` of `s` is outside the string or holds a non-word character
(the two sides of the regex word boundary `\b`). -/
def nonWordAt (s : List Char) (j : Nat) : Bool :=
  match s.get? j with
  | none => true
  | some c => !isWordChar c

/-- The lowercase keyword `kw` matches `s` at position `j`, case-insensitively
and with a word boundary `\b` on both sides. -/
def kwMatchAt (s : List Char) (j : Nat) (kw : List Char) : Bool :=
  ciMatchesFront kw (s.drop j) && (j == 0 || nonWordAt s (j - 1))
    && nonWordAt s (j + kw.length)

/-- End position of the first keyword of the alternation matching at `j`. -/
def altMatchAt (s : List Char) (j : Nat) : List (List Char) → Option Nat
  | [] => none
  | kw :: kws => if kwMatchAt s j kw then some (j + kw.length) else altMatchAt s j kws

/-- Scan positions `j, j+1, ...` (at most `fuel` of them) for a match,
returning the end position of the first one. -/
def findFromAux (matchAt : Nat → Option Nat) : Nat → Nat → Option Nat
  | _, 0 => none
  | j, fuel + 1 =>
      match matchAt j with
      | some e => some e
      | none => findFromAux matchAt (j + 1) fuel

/-- Leftmost match of `matchAt` in `s` at position `i` or later. -/
def regexFindFrom (s : List Char) (matchAt : Nat → Option Nat) (i : Nat) : Option Nat :=
  findFromAux matchAt i (s.length + 1 - i)

/-- Matcher of `DANGEROUS_PATTERNS[0]`, the shell-metacharacter class. -/
def shellMetaMatchAt (s : List Char) (j : Nat) : Option Nat :=
  match s.get? j with
  | some c => if shellMetaChars.contains c then some (j + 1) else none
  | none => none

/-- Keyword alternation of `DANGEROUS_PATTERNS[1]` (dangerous function
names), in declared order. -/
def dangerousFunctionKeywords : List (List Char) :=
  ["eval".toList, "exec".toList, "system".toList, "spawn".toList, "fork".toList]

/-- Matcher of `DANGEROUS_PATTERNS[1]`. -/
def dangerousFunctionMatchAt (s : List Char) (j : Nat) : Option Nat :=
  altMatchAt s j dangerousFunctionKeywords

/-- Keyword alternation of `DANGEROUS_PATTERNS[2]` (dangerous commands),
in declared order. -/
def dangerousCommandKeywords : List (List Char) :=
  ["rm".toList, "del".toList, "format".toList, "shutdown".toList, "reboot".toList]

/-- Matcher of `DANGEROUS_PATTERNS[2]`. -/
def dangerousCommandMatchAt (s : List Char) (j : Nat) : Option Nat :=
  altMatchAt s j dangerousCommandKeywords

/-- Matcher of `DANGEROUS_PATTERNS[3]`, the path-traversal alternation of
the literals "../" and "..\\". -/
def traversalMatchAt (s : List Char) (j : Nat) : Option Nat :=
  if "../".toList.isPrefixOf (s.drop j) then some (j + 3)
  else if "..\\".toList.isPrefixOf (s.drop j) then some (j + 3)
  else none

/-- Matcher of `DANGEROUS_PATTERNS[4]`, the redirection class `[<>]`. -/
def redirectionMatchAt (s : List Char) (j : Nat) : Option Nat :=
  match s.get? j with
  | some c => if c == '<' || c == '>' then some (j + 1) else none
  | none => none

/-- JS `RegExp.prototype.test` for a regex carrying the `g` flag: the search
starts at the stored `lastIndex`; a hit stores the match end back into
`lastIndex` and returns true, a miss resets `lastIndex` to 0 and returns
false. -/
def regexTestG (s : List Char) (matchAt : List Char → Nat → Option Nat)
    (lastIndex : Nat) : Bool × Nat :=
  match regexFindFrom s (matchAt s) lastIndex with
  | some e => (true, e)
  | none => (false, 0)

/-- Mutable `lastIndex` fields of the five module-level `DANGEROUS_PATTERNS`
regexes (all declared with the `g` flag), which persist across calls. -/
structure RegexState where
  li1 : Nat
  li2 : Nat
  li3 : Nat
  li4 : Nat
  li5 : Nat
deriving Repr, DecidableEq

/-- State of the freshly loaded module: every `lastIndex` is 0. -/
def RegexState.initial : RegexState := ⟨0, 0, 0, 0, 0⟩

/-- JS `String.prototype.trim`: strip whitespace from both ends. -/
def jsTrim (s : List Char) : List Char :=
  ((s.dropWhile Char.isWhitespace).reverse.dropWhile Char.isWhitespace).reverse

/-- Final allowlist pass of `sanitizeInput`:
`input.replace(/[^\w\s.-]/g, "").trim()`.  The replace regex is a fresh
literal on every call, so it carries no cross-call state. -/
def sanitizeCleaned (input : String) : String :=
  String.mk (jsTrim (input.toList.filter fun c =>
    isWordChar c || c.isWhitespace || c == '.' || c == '-'))

/-- `sanitizeInput(input, maxLength)` from `security.ts`, with the shared
`lastIndex` state of the five module-level denylist regexes threaded through
explicitly.  Returns the thrown error message or the cleaned string, plus
the regex state after the call. -/
def sanitizeInput (st : RegexState) (input : String) (maxLength : Nat) :
    Except String String × RegexState :=
  let s := input.toList
  if s.length > maxLength then
    (Except.error ("Input too long. Maximum length: " ++ toString maxLength), st)
  else
    let msg := "Input contains potentially dangerous characters or commands"
    let t1 := regexTestG s shellMetaMatchAt st.li1
    if t1.1 then (Except.error msg, ⟨t1.2, st.li2, st.li3, st.li4, st.li5⟩)
    else
      let t2 := regexTestG s dangerousFunctionMatchAt st.li2
      if t2.1 then (Except.error msg, ⟨t1.2, t2.2, st.li3, st.li4, st.li5⟩)
      else
        let t3 := regexTestG s dangerousCommandMatchAt st.li3
        if t3.1 then (Except.error msg, ⟨t1.2, t2.2, t3.2, st.li4, st.li5⟩)
        else
          let t4 := regexTestG s traversalMatchAt st.li4
          if t4.1 then (Except.error msg, ⟨t1.2, t2.2, t3.2, t4.2, st.li5⟩)
          else
            let t5 := regexTestG s redirectionMatchAt st.li5
            if t5.1 then (Except.error msg, ⟨t1.2, t2.2, t3.2, t4.2, t5.2⟩)
            else (Except.ok (sanitizeCleaned input), ⟨t1.2, t2.2, t3.2, t4.2, t5.2⟩)

/-- C3 (code bug): the `DANGEROUS_PATTERNS` regexes are module-level
constants carrying the `g` flag, so `RegExp.test` resumes searching from the
stored `lastIndex` of the previous call.  The first call with the denylisted
input "eval" throws as the claim demands, but the immediately following call
with the same input finds no match (the keyword regex resumes at index 4),
silently passes the denylist and returns the cleaned string "eval". -/
theorem sanitizeInput_global_state_bug :
    (sanitizeInput RegexState.initial "eval" 1000).1
      = Except.error "Input contains potentially dangerous characters or commands" ∧
    (sanitizeInput RegexState.initial "eval" 1000).2 = ⟨0, 4, 0, 0, 0⟩ ∧
    (sanitizeInput (sanitizeInput RegexState.initial "eval" 1000).2 "eval" 1000).1
      = Except.ok "eval" :=
  ⟨rfl, rfl, rfl⟩

/-- Severity levels of a security event. -/
inductive Severity
  | low
  | medium
  | high
  | critical
deriving Repr, DecidableEq

/-- Argument type of `logSecurityEvent` (its `Omit<SecurityEvent,
"timestamp">` parameter); detail values may be absent, as `userAgent` is
when the header is missing. -/
structure SecurityEventInput where
  event : String
  identifier : String
  details : List (String × Option String)
  severity : Severity
deriving Repr, DecidableEq

/-- A stored audit-log record (`SecurityEvent` in `security.ts`). -/
structure SecurityEvent where
  timestamp : String
  event : String
  identifier : String
  details : List (String × Option String)
  severity : Severity
deriving Repr, DecidableEq

/-- Record built by `logSecurityEvent` by spreading its argument and adding
the current time (`new Date().toISOString()`), passed in explicitly. -/
def SecurityEvent.ofInput (e : SecurityEventInput) (timestamp : String) : SecurityEvent :=
  ⟨timestamp, e.event, e.identifier, e.details, e.severity⟩

/-- `logSecurityEvent(event)` from `security.ts`: push the timestamped
record, then shift off the oldest entry if the buffer exceeds 1000. -/
def logSecurityEvent (log : List SecurityEvent) (e : SecurityEventInput)
    (timestamp : String) : List SecurityEvent :=
  let pushed := log ++ [SecurityEvent.ofInput e timestamp]
  if pushed.length > 1000 then pushed.drop 1 else pushed

/-- `getSecurityLog()` from `security.ts`: `[...securityLog]` builds a fresh
array holding the current contents in insertion order; under the value
semantics of the embedding that snapshot is the list itself. -/
def getSecurityLog (log : List SecurityEvent) : List SecurityEvent := log

/-- Append a batch of events (each with its timestamp) in order. -/
def appendEvents (log : List SecurityEvent)
    (es : List (SecurityEventInput × String)) : List SecurityEvent :=
  es.foldl (fun acc e => logSecurityEvent acc e.1 e.2) log

lemma logSecurityEvent_length_le (log : List SecurityEvent)
    (e : SecurityEventInput) (ts : String) (h : log.length ≤ 1000) :
    (logSecurityEvent log e ts).length ≤ 1000 := by
  have hlen : (log ++ [SecurityEvent.ofInput e ts]).length = log.length + 1 := by simp
  unfold logSecurityEvent
  by_cases hgt : (log ++ [SecurityEvent.ofInput e ts]).length > 1000
  · simp only [if_pos hgt, List.length_drop]
    omega
  · simp only [if_neg hgt]
    omega

lemma appendEvents_length_le (es : List (SecurityEventInput × String)) :
    ∀ log : List SecurityEvent, log.length ≤ 1000 →
      (appendEvents log es).length ≤ 1000 := by
  induction es with
  | nil =>
      intro log h
      simpa [appendEvents] using h
  | cons e es ih =>
      intro log h
      have h2 := logSecurityEvent_length_le log e.1 e.2 h
      simpa [appendEvents, List.foldl_cons] using ih _ h2

/-- C4: starting from the empty startup buffer, no sequence of
`logSecurityEvent` appends leaves more than 1000 entries; an append to a
buffer holding exactly 1000 entries evicts exactly the oldest entry and
places the new record at the end (FIFO); and `getSecurityLog` returns the
current contents in insertion order — a snapshot copy which, under the
value semantics of the embedding, callers cannot use to mutate the live
buffer. -/
theorem auditLog_capacity_fifo_snapshot
    (es : List (SecurityEventInput × String))
    (full : List SecurityEvent) (hfull : full.length = 1000)
    (e : SecurityEventInput) (ts : String) :
    (appendEvents [] es).length ≤ 1000 ∧
    logSecurityEvent full e ts = full.drop 1 ++ [SecurityEvent.ofInput e ts] ∧
    getSecurityLog (appendEvents [] es) = appendEvents [] es := by
  refine ⟨appendEvents_length_le es [] (by simp), ?_, rfl⟩
  unfold logSecurityEvent
  rw [if_pos (by simp [hfull])]
  rw [List.drop_append_of_le_length (by omega)]

/-- Sample audit event used by the C4 witness. -/
def sampleEventInput : SecurityEventInput :=
  ⟨"authentication_failed", "1.2.3.4", [("url", some "/mcp")], Severity.medium⟩

/-- Sample stored record used by the C4 witness. -/
def sampleEvent : SecurityEvent := SecurityEvent.ofInput sampleEventInput "t0"

/-- Witness for C4 on a buffer of exactly 1000 records. -/
theorem auditLog_capacity_fifo_snapshot_witness :
    (List.replicate 1000 sampleEvent).length = 1000 ∧
    ((appendEvents [] [(sampleEventInput, "t1")]).length ≤ 1000 ∧
     logSecurityEvent (List.replicate 1000 sampleEvent) sampleEventInput "t1"
       = (List.replicate 1000 sampleEvent).drop 1
           ++ [SecurityEvent.ofInput sampleEventInput "t1"] ∧
     getSecurityLog (appendEvents [] [(sampleEventInput, "t1")])
       = appendEvents [] [(sampleEventInput, "t1")]) :=
  ⟨List.length_replicate 1000 sampleEvent,
   auditLog_capacity_fifo_snapshot [(sampleEventInput, "t1")]
     (List.replicate 1000 sampleEvent) (List.length_replicate 1000 sampleEvent)
     sampleEventInput "t1"⟩

/-- JS `String.prototype.startsWith`, computed on the character list so
that it reduces definitionally (identical on the ASCII strings in play). -/
def jsStartsWith (s pre : String) : Bool := pre.toList.isPrefixOf s.toList

/-- JS `String.prototype.slice(n)` (character based, identical on ASCII). -/
def jsDrop (s : String) (n : Nat) : String := String.mk (s.toList.drop n)

/-- JS `String.prototype.trim` on a string. -/
def jsTrimS (s : String) : String := String.mk (jsTrim s.toList)

/-- Split a character list at a separator character; like JS
`String.prototype.split`, the result is never empty. -/
def splitCharAux (sep : Char) : List Char → List Char → List (List Char)
  | [], acc => [acc.reverse]
  | c :: cs, acc =>
      if c == sep then acc.reverse :: splitCharAux sep cs []
      else splitCharAux sep cs (c :: acc)

/-- JS `String.prototype.split(sep)` for a one-character separator. -/
def jsSplitChar (s : String) (sep : Char) : List String :=
  (splitCharAux sep s.toList []).map String.mk

/-- Structured rejection written by `reply.status(code).send({...})`. -/
structure Rejection where
  status : Nat
  error : String
  message : String
  retryAfter : Option Nat
deriving Repr, DecidableEq

/-- `SecurityConfig` from `middleware.ts`. -/
structure SecurityConfig where
  enableAuth : Bool
  apiKey : Option String
  enableRateLimit : Bool
  maxRequestsPerMinute : Nat
  enableRequestLogging : Bool
  trustedOrigins : List String
deriving Repr, DecidableEq

/-- The fields of a Fastify request that the security middleware reads. -/
structure Request where
  url : String
  authorization : Option String
  origin : Option String
  userAgent : Option String
  xForwardedFor : Option String
  xRealIp : Option String
  ip : Option String
deriving Repr, DecidableEq

/-- `getClientIP(request)` from `middleware.ts`: first hop of
`x-forwarded-for`, else `x-real-ip`, else the socket address, else
"unknown". -/
def getClientIP (request : Request) : String :=
  match request.xForwardedFor with
  | some forwarded =>
      match (jsSplitChar forwarded ',').head? with
      | some firstIP => jsTrimS firstIP
      | none => "unknown"
  | none =>
      match request.xRealIp with
      | some realIp => realIp
      | none => request.ip.getD "unknown"

/-- Reply under construction: the response headers set so far and the
rejection sent, if any. -/
structure ReplyState where
  headers : List (String × String)
  rejection : Option Rejection
deriving Repr, DecidableEq

/-- `reply.header(key, value)`. -/
def ReplyState.header (r : ReplyState) (k v : String) : ReplyState :=
  { r with headers := r.headers ++ [(k, v)] }

/-- `reply.status(code).send({error, message, retryAfter?})`. -/
def ReplyState.reject (r : ReplyState) (status : Nat) (err msg : String)
    (retryAfter : Option Nat) : ReplyState :=
  { r with rejection := some ⟨status, err, msg, retryAfter⟩ }

/-- Fresh reply for an incoming request. -/
def ReplyState.initial : ReplyState := ⟨[], none⟩

/-- `authMiddleware(request, reply, config)` from `middleware.ts`, with the
audit log threaded and the timestamp of any logged event explicit. -/
def authMiddleware (request : Request) (reply : ReplyState)
    (config : SecurityConfig) (log : List SecurityEvent) (timestamp : String) :
    ReplyState × List SecurityEvent :=
  if !config.enableAuth || !jsStartsWith request.url "/mcp" then (reply, log)
  else
    match request.authorization with
    | none =>
        (reply.reject 401 "Unauthorized" "Missing or invalid authorization header" none,
         logSecurityEvent log
           ⟨"authentication_failed", getClientIP request,
            [("url", some request.url), ("userAgent", request.userAgent),
             ("reason", some "missing_or_invalid_header")], Severity.medium⟩ timestamp)
    | some authHeader =>
        if !jsStartsWith authHeader "Bearer " then
          (reply.reject 401 "Unauthorized" "Missing or invalid authorization header" none,
           logSecurityEvent log
             ⟨"authentication_failed", getClientIP request,
              [("url", some request.url), ("userAgent", request.userAgent),
               ("reason", some "missing_or_invalid_header")], Severity.medium⟩ timestamp)
        else
          let token := jsDrop authHeader 7
          if some token ≠ config.apiKey then
            (reply.reject 403 "Forbidden" "Invalid API key" none,
             logSecurityEvent log
               ⟨"authentication_failed", getClientIP request,
                [("url", some request.url), ("userAgent", request.userAgent),
                 ("reason", some "invalid_token")], Severity.high⟩ timestamp)
          else (reply, log)

/-- C2: with authentication enabled and `apiKey = "secret123"`, a request on
a path under the protected prefix "/mcp" with header
`Authorization: Bearer secret123` is admitted with the reply untouched;
`Bearer wrong` is rejected with status 403; a missing Authorization header,
or one not of the form `Bearer <token>`, is rejected with status 401; and a
request on a path outside the prefix is admitted regardless of the header. -/
theorem authMiddleware_policy (config : SecurityConfig)
    (hA : config.enableAuth = true) (hK : config.apiKey = some "secret123")
    (request : Request) (reply : ReplyState)
    (log : List SecurityEvent) (ts : String) :
    (jsStartsWith request.url "/mcp" = true →
      (authMiddleware { request with authorization := some "Bearer secret123" }
          reply config log ts).1 = reply ∧
      (authMiddleware { request with authorization := some "Bearer wrong" }
          reply config log ts).1.rejection
        = some ⟨403, "Forbidden", "Invalid API key", none⟩ ∧
      (authMiddleware { request with authorization := none }
          reply config log ts).1.rejection
        = some ⟨401, "Unauthorized", "Missing or invalid authorization header", none⟩ ∧
      (∀ h, jsStartsWith h "Bearer " = false →
        (authMiddleware { request with authorization := some h }
            reply config log ts).1.rejection
          = some ⟨401, "Unauthorized", "Missing or invalid authorization header", none⟩)) ∧
    (jsStartsWith request.url "/mcp" = false →
      ∀ auth, (authMiddleware { request with authorization := auth }
          reply config log ts).1 = reply) := by
  have hok : jsStartsWith "Bearer secret123" "Bearer " = true := rfl
  have hdok : jsDrop "Bearer secret123" 7 = "secret123" := rfl
  have hwr : jsStartsWith "Bearer wrong" "Bearer " = true := rfl
  have hdwr : jsDrop "Bearer wrong" 7 = "wrong" := rfl
  have hne : ¬(some "wrong" = some "secret123") := by decide
  constructor
  · intro hurl
    refine ⟨?_, ?_, ?_, ?_⟩
    · simp [authMiddleware, hA, hurl, hK, hok, hdok]
    · simp [authMiddleware, hA, hurl, hK, hwr, hdwr, hne, ReplyState.reject]
    · simp [authMiddleware, hA, hurl, ReplyState.reject]
    · intro h hh
      simp [authMiddleware, hA, hurl, hh, ReplyState.reject]
  · intro hurl auth
    simp [authMiddleware, hurl]

/-- Configuration used by the C2 witness. -/
def cfgAuthW : SecurityConfig := ⟨true, some "secret123", true, 100, true, []⟩

/-- Request shell used by the C2 witness. -/
def reqMcpW : Request := ⟨"/mcp", none, none, none, none, none, some "1.1.1.1"⟩

/-- Witness for C2 on a concrete protected-path request. -/
theorem authMiddleware_policy_witness :
    (authMiddleware { reqMcpW with authorization := some "Bearer secret123" }
        ReplyState.initial cfgAuthW [] "t").1 = ReplyState.initial ∧
    (authMiddleware { reqMcpW with authorization := some "Bearer wrong" }
        ReplyState.initial cfgAuthW [] "t").1.rejection
      = some ⟨403, "Forbidden", "Invalid API key", none⟩ ∧
    (authMiddleware { reqMcpW with authorization := none }
        ReplyState.initial cfgAuthW [] "t").1.rejection
      = some ⟨401, "Unauthorized", "Missing or invalid authorization header", none⟩ :=
  let h := (authMiddleware_policy cfgAuthW rfl rfl reqMcpW
    ReplyState.initial [] "t").1 rfl
  ⟨h.1, h.2.1, h.2.2.1⟩

/-- Trailing CORS headers that `corsMiddleware` applies to every admitted
request under the protected prefix. -/
def corsTail (reply : ReplyState) : ReplyState :=
  ((reply.header "Access-Control-Allow-Credentials" "true").header
      "Access-Control-Allow-Methods" "GET, POST, OPTIONS").header
    "Access-Control-Allow-Headers" "Content-Type, Authorization"

/-- `corsMiddleware(request, reply, config)` from `middleware.ts`. -/
def corsMiddleware (request : Request) (reply : ReplyState)
    (config : SecurityConfig) (log : List SecurityEvent) (timestamp : String) :
    ReplyState × List SecurityEvent :=
  if !jsStartsWith request.url "/mcp" then (reply, log)
  else
    match request.origin with
    | some origin =>
        if config.trustedOrigins.length > 0 then
          if config.trustedOrigins.contains origin then
            (corsTail (reply.header "Access-Control-Allow-Origin" origin), log)
          else
            (reply.reject 403 "Forbidden" "Origin not allowed" none,
             logSecurityEvent log
               ⟨"untrusted_origin_blocked", getClientIP request,
                [("origin", some origin), ("url", some request.url)],
                Severity.medium⟩ timestamp)
        else (corsTail reply, log)
    | none => (corsTail reply, log)

/-- C6: with `trustedOrigins = ["https://a.com"]`, a protected-path request
with `Origin: https://a.com` is admitted and the response echoes exactly
that origin in `Access-Control-Allow-Origin`; `Origin: https://evil.com` is
rejected with status 403; a request with no Origin header passes the check;
and with an empty trusted-origin set every request passes the origin check
unchecked (default-open). -/
theorem corsMiddleware_policy (config : SecurityConfig)
    (hT : config.trustedOrigins = ["https://a.com"])
    (request : Request) (hurl : jsStartsWith request.url "/mcp" = true)
    (reply : ReplyState) (hr : reply.rejection = none)
    (log : List SecurityEvent) (ts : String) :
    ((corsMiddleware { request with origin := some "https://a.com" }
        reply config log ts).1.rejection = none ∧
     ("Access-Control-Allow-Origin", "https://a.com")
       ∈ (corsMiddleware { request with origin := some "https://a.com" }
            reply config log ts).1.headers) ∧
    (corsMiddleware { request with origin := some "https://evil.com" }
        reply config log ts).1.rejection
      = some ⟨403, "Forbidden", "Origin not allowed", none⟩ ∧
    (corsMiddleware { request with origin := none }
        reply config log ts).1.rejection = none ∧
    (∀ (c2 : SecurityConfig) (r2 : Request) (rep2 : ReplyState)
        (log2 : List SecurityEvent) (ts2 : String),
       c2.trustedOrigins = [] → rep2.rejection = none →
       (corsMiddleware r2 rep2 c2 log2 ts2).1.rejection = none) := by
  have hmem : ("https://a.com" :: []).contains "https://a.com" = true := by decide
  have hnem : ("https://a.com" :: []).contains "https://evil.com" = false := by decide
  refine ⟨⟨?_, ?_⟩, ?_, ?_, ?_⟩
  · simp [corsMiddleware, hurl, hT, hmem, corsTail, ReplyState.header, hr]
  · simp [corsMiddleware, hurl, hT, hmem, corsTail, ReplyState.header]
  · simp [corsMiddleware, hurl, hT, hnem, ReplyState.reject]
  · simp [corsMiddleware, hurl, hT, corsTail, ReplyState.header, hr]
  · intro c2 r2 rep2 log2 ts2 h2 hrej2
    by_cases hu : jsStartsWith r2.url "/mcp" = true
    · cases ho : r2.origin with
      | none => simp [corsMiddleware, hu, ho, corsTail, ReplyState.header, hrej2]
      | some o => simp [corsMiddleware, hu, ho, h2, corsTail, ReplyState.header, hrej2]
    · have hu2 : jsStartsWith r2.url "/mcp" = false := by simpa using hu
      simp [corsMiddleware, hu2, hrej2]

/-- Configuration used by the C6 witness. -/
def cfgCorsW : SecurityConfig := ⟨false, none, true, 100, true, ["https://a.com"]⟩

/-- Witness for C6 on a concrete protected-path request. -/
theorem corsMiddleware_policy_witness :
    ((corsMiddleware { reqMcpW with origin := some "https://a.com" }
        ReplyState.initial cfgCorsW [] "t").1.rejection = none ∧
     ("Access-Control-Allow-Origin", "https://a.com")
       ∈ (corsMiddleware { reqMcpW with origin := some "https://a.com" }
            ReplyState.initial cfgCorsW [] "t").1.headers) ∧
    (corsMiddleware { reqMcpW with origin := some "https://evil.com" }
        ReplyState.initial cfgCorsW [] "t").1.rejection
      = some ⟨403, "Forbidden", "Origin not allowed", none⟩ :=
  let h := corsMiddleware_policy cfgCorsW rfl reqMcpW rfl
    ReplyState.initial rfl [] "t"
  ⟨h.1, h.2.1⟩

/-- A single-quote character as a string, used to build the CSP value
verbatim. -/
def squote : String := String.mk [Char.ofNat 39]

/-- Value of the Content-Security-Policy header set by `cspMiddleware`. -/
def cspHeaderValue : String :=
  "default-src " ++ squote ++ "self" ++ squote ++ "; script-src " ++ squote ++ "self" ++ squote ++
  "; style-src " ++ squote ++ "self" ++ squote ++ " " ++ squote ++ "unsafe-inline" ++ squote ++
  "; img-src " ++ squote ++ "self" ++ squote ++ " data:; font-src " ++ squote ++ "self" ++ squote ++
  "; connect-src " ++ squote ++ "self" ++ squote ++ "; frame-ancestors " ++ squote ++ "none" ++
  squote ++ ";"

/-- `cspMiddleware(_request, reply)` from `middleware.ts`: unconditionally
adds the five hardening response headers. -/
def cspMiddleware (reply : ReplyState) : ReplyState :=
  ((((reply.header "Content-Security-Policy" cspHeaderValue).header
      "X-Content-Type-Options" "nosniff").header
      "X-Frame-Options" "DENY").header
      "X-XSS-Protection" "1; mode=block").header
    "Referrer-Policy" "strict-origin-when-cross-origin"

/-- `requestLoggingMiddleware(request, _reply, config)` from
`middleware.ts`: when enabled it emits a log line through the request
logger — a side effect outside the gate state — and it never modifies the
reply either way. -/
def requestLoggingMiddleware (_request : Request) (reply : ReplyState)
    (_config : SecurityConfig) : ReplyState :=
  reply

/-- `rateLimitMiddleware(request, reply, config)` from `middleware.ts`. -/
def rateLimitMiddleware (request : Request) (reply : ReplyState)
    (config : SecurityConfig) (rlMap : RateLimitMap) (log : List SecurityEvent)
    (now : Nat) (timestamp : String) :
    ReplyState × RateLimitMap × List SecurityEvent :=
  if !config.enableRateLimit then (reply, rlMap, log)
  else
    let clientIP := getClientIP request
    let r := checkRateLimit rlMap now clientIP config.maxRequestsPerMinute 60000
    if !r.1 then
      (reply.reject 429 "Too Many Requests"
         "Rate limit exceeded. Please try again later." (some 60),
       r.2,
       logSecurityEvent log
         ⟨"rate_limit_exceeded", clientIP,
          [("url", some request.url), ("userAgent", request.userAgent)],
          Severity.medium⟩ timestamp)
    else (reply, r.2, log)

/-- Shared per-request state that the middleware stages act on. -/
structure GateState where
  reply : ReplyState
  rlMap : RateLimitMap
  log : List SecurityEvent

/-- An onRequest hook acting on the gate state. -/
def Stage : Type := Request → GateState → GateState

/-- Hook registered first by `registerSecurityMiddleware`: security
headers. -/
def cspStage : Stage := fun _request st => { st with reply := cspMiddleware st.reply }

/-- Hook registered second: request logging. -/
def loggingStage (config : SecurityConfig) : Stage := fun request st =>
  { st with reply := requestLoggingMiddleware request st.reply config }

/-- Hook registered third: CORS / origin enforcement. -/
def corsStage (config : SecurityConfig) (timestamp : String) : Stage := fun request st =>
  let r := corsMiddleware request st.reply config st.log timestamp
  { st with reply := r.1, log := r.2 }

/-- Hook registered fourth: rate limiting. -/
def rateLimitStage (config : SecurityConfig) (now : Nat) (timestamp : String) : Stage :=
  fun request st =>
    let r := rateLimitMiddleware request st.reply config st.rlMap st.log now timestamp
    ⟨r.1, r.2.1, r.2.2⟩

/-- Hook registered fifth: authentication. -/
def authStage (config : SecurityConfig) (timestamp : String) : Stage := fun request st =>
  let r := authMiddleware request st.reply config st.log timestamp
  { st with reply := r.1, log := r.2 }

/-- `registerSecurityMiddleware(app, config)` from `middleware.ts`: the
onRequest hooks in the order they are registered with Fastify. -/
def registerSecurityMiddleware (config : SecurityConfig) (now : Nat)
    (timestamp : String) : List Stage :=
  [cspStage, loggingStage config, corsStage config timestamp,
   rateLimitStage config now timestamp, authStage config timestamp]

/-- Modelled from the spec: the host framework's hook runner (external to
the repository) executes the registered onRequest hooks in order, and the
first hook that sends a Rejection ends the chain — no later hook runs. -/
def runChain : List Stage → Request → GateState → GateState
  | [], _, st => st
  | s :: rest, request, st =>
      if st.reply.rejection.isSome then st
      else runChain rest request (s request st)

/-- Modelled from the spec: protocol dispatch runs only when no middleware
stage rejected the request; the boolean records whether dispatch ran. -/
def processRequest (config : SecurityConfig) (now : Nat) (timestamp : String)
    (request : Request) (st0 : GateState) (dispatch : GateState → GateState) :
    GateState × Bool :=
  let st := runChain (registerSecurityMiddleware config now timestamp) request st0
  if st.reply.rejection.isSome then (st, false) else (dispatch st, true)

/-- The response headers of C5 that must be present on every response. -/
def securityHeaderPairs : List (String × String) :=
  [("Content-Security-Policy", cspHeaderValue),
   ("X-Content-Type-Options", "nosniff"),
   ("X-Frame-Options", "DENY"),
   ("Referrer-Policy", "strict-origin-when-cross-origin")]

lemma runChain_of_rejected (stages : List Stage) (request : Request)
    (st : GateState) (h : st.reply.rejection.isSome = true) :
    runChain stages request st = st := by
  cases stages with
  | nil => rfl
  | cons s rest => simp [runChain, h]

lemma runChain_cons_not_rejected (s : Stage) (rest : List Stage)
    (request : Request) (st : GateState) (h : st.reply.rejection = none) :
    runChain (s :: rest) request st = runChain rest request (s request st) := by
  simp [runChain, h]

lemma runChain_append_of_rejected (request : Request) :
    ∀ (pre post : List Stage) (st : GateState),
      (runChain pre request st).reply.rejection.isSome = true →
      runChain (pre ++ post) request st = runChain pre request st := by
  intro pre
  induction pre with
  | nil =>
      intro post st h
      have h0 : st.reply.rejection.isSome = true := by simpa [runChain] using h
      simpa [runChain] using runChain_of_rejected post request st h0
  | cons s rest ih =>
      intro post st h
      by_cases hr : st.reply.rejection.isSome = true
      · rw [runChain_of_rejected _ _ _ hr, runChain_of_rejected _ _ _ hr]
      · have hr2 : st.reply.rejection = none := by
          cases h2 : st.reply.rejection with
          | none => rfl
          | some r => rw [h2] at hr; simp at hr
        rw [List.cons_append, runChain_cons_not_rejected _ _ _ _ hr2,
          runChain_cons_not_rejected _ _ _ _ hr2]
        rw [runChain_cons_not_rejected _ _ _ _ hr2] at h
        exact ih post (s request st) h

/-- A stage only ever adds response headers, never removes one. -/
def headersMono (s : Stage) : Prop :=
  ∀ (request : Request) (st : GateState) (p : String × String),
    p ∈ st.reply.headers → p ∈ (s request st).reply.headers

lemma header_mem (r : ReplyState) (p : String × String) (k2 v2 : String)
    (h : p ∈ r.headers) : p ∈ (r.header k2 v2).headers := by
  simp [ReplyState.header]
  exact Or.inl h

lemma corsTail_mem (r : ReplyState) (p : String × String)
    (h : p ∈ r.headers) : p ∈ (corsTail r).headers :=
  header_mem _ _ _ _ (header_mem _ _ _ _ (header_mem _ _ _ _ h))

lemma headersMono_logging (config : SecurityConfig) :
    headersMono (loggingStage config) := by
  intro request st p h
  simpa [loggingStage, requestLoggingMiddleware] using h

lemma headersMono_cors (config : SecurityConfig) (ts : String) :
    headersMono (corsStage config ts) := by
  intro request st p h
  simp only [corsStage]
  unfold corsMiddleware
  split
  · exact h
  · split
    · split
      · split
        · exact corsTail_mem _ _ (header_mem _ _ _ _ h)
        · simpa [ReplyState.reject] using h
      · exact corsTail_mem _ _ h
    · exact corsTail_mem _ _ h

lemma headersMono_rateLimit (config : SecurityConfig) (now : Nat) (ts : String) :
    headersMono (rateLimitStage config now ts) := by
  intro request st p h
  simp only [rateLimitStage]
  unfold rateLimitMiddleware
  dsimp only
  split
  · exact h
  · split
    · simpa [ReplyState.reject] using h
    · exact h

lemma headersMono_auth (config : SecurityConfig) (ts : String) :
    headersMono (authStage config ts) := by
  intro request st p h
  simp only [authStage]
  unfold authMiddleware
  dsimp only
  split
  · exact h
  · split
    · simpa [ReplyState.reject] using h
    · split
      · simpa [ReplyState.reject] using h
      · split
        · simpa [ReplyState.reject] using h
        · exact h

lemma runChain_headers_mono :
    ∀ (stages : List Stage), (∀ s ∈ stages, headersMono s) →
      ∀ (request : Request) (st : GateState) (p : String × String),
        p ∈ st.reply.headers → p ∈ (runChain stages request st).reply.headers := by
  intro stages
  induction stages with
  | nil =>
      intro _ request st p h
      simpa [runChain] using h
  | cons s rest ih =>
      intro hs request st p h
      by_cases hr : st.reply.rejection.isSome = true
      · rw [runChain_of_rejected _ _ _ hr]
        exact h
      · have hr2 : st.reply.rejection = none := by
          cases h2 : st.reply.rejection with
          | none => rfl
          | some r => rw [h2] at hr; simp at hr
        rw [runChain_cons_not_rejected _ _ _ _ hr2]
        exact ih (fun s2 hs2 => hs s2 (List.mem_cons_of_mem s hs2)) request
          (s request st) p (hs s (List.mem_cons_self s rest) request st p h)

/-- C5: the hooks registered by `registerSecurityMiddleware` are, in this
fixed order, security response headers, request logging, origin guard, rate
limiter and auth guard; the security headers are present on the final reply
even when a later stage rejects; request logging never modifies the reply;
once a prefix of the chain has produced a rejection the remaining stages do
not run; and no protocol dispatch happens for a rejected request. -/
theorem middlewareChain_contract (config : SecurityConfig) (now : Nat) (ts : String)
    (request : Request) (st0 : GateState) (h0 : st0.reply.rejection = none)
    (dispatch : GateState → GateState) :
    registerSecurityMiddleware config now ts
      = [cspStage, loggingStage config, corsStage config ts,
         rateLimitStage config now ts, authStage config ts] ∧
    (∀ p ∈ securityHeaderPairs,
       p ∈ (runChain (registerSecurityMiddleware config now ts)
              request st0).reply.headers) ∧
    (∀ (r : Request) (rep : ReplyState) (c : SecurityConfig),
       requestLoggingMiddleware r rep c = rep) ∧
    (∀ (pre post : List Stage) (st : GateState),
       (runChain pre request st).reply.rejection.isSome = true →
       runChain (pre ++ post) request st = runChain pre request st) ∧
    ((runChain (registerSecurityMiddleware config now ts)
        request st0).reply.rejection.isSome = true →
       processRequest config now ts request st0 dispatch
         = (runChain (registerSecurityMiddleware config now ts) request st0,
            false)) := by
  refine ⟨rfl, ?_, fun _ rep _ => rfl,
    fun pre post st h => runChain_append_of_rejected request pre post st h, ?_⟩
  · intro p hp
    have hreg : registerSecurityMiddleware config now ts
        = cspStage :: [loggingStage config, corsStage config ts,
            rateLimitStage config now ts, authStage config ts] := rfl
    rw [hreg, runChain_cons_not_rejected _ _ _ _ h0]
    have hmono : ∀ s ∈ [loggingStage config, corsStage config ts,
        rateLimitStage config now ts, authStage config ts], headersMono s := by
      intro s hs
      simp only [List.mem_cons, List.not_mem_nil, or_false] at hs
      rcases hs with rfl | rfl | rfl | rfl
      · exact headersMono_logging config
      · exact headersMono_cors config ts
      · exact headersMono_rateLimit config now ts
      · exact headersMono_auth config ts
    apply runChain_headers_mono _ hmono
    simp only [securityHeaderPairs, List.mem_cons, List.not_mem_nil, or_false] at hp
    rcases hp with rfl | rfl | rfl | rfl <;>
      simp [cspStage, cspMiddleware, ReplyState.header]
  · intro h
    simp [processRequest, h]

/-- Gate state at startup, used by the C5 witness. -/
def gateW : GateState := ⟨ReplyState.initial, RateLimitMap.empty, []⟩

/-- Witness for C5: a protected-path request with no Authorization header
under `cfgAuthW` is rejected by the auth stage, yet the final reply carries
the security headers and dispatch does not run. -/
theorem middlewareChain_contract_witness :
    (("Content-Security-Policy", cspHeaderValue)
       ∈ (runChain (registerSecurityMiddleware cfgAuthW 0 "t")
            reqMcpW gateW).reply.headers) ∧
    processRequest cfgAuthW 0 "t" reqMcpW gateW id
      = (runChain (registerSecurityMiddleware cfgAuthW 0 "t") reqMcpW gateW,
         false) :=
  ⟨(middlewareChain_contract cfgAuthW 0 "t" reqMcpW gateW rfl id).2.1 _
     (by simp [securityHeaderPairs]),
   (middlewareChain_contract cfgAuthW 0 "t" reqMcpW gateW rfl id).2.2.2.2
     (by rfl)⟩

/-- Whether `pat` occurs as a contiguous subsequence of the list: JS
`String.prototype.includes` on character lists. -/
def containsSeq (pat : List Char) : List Char → Bool
  | [] => pat.isEmpty
  | c :: cs => pat.isPrefixOf (c :: cs) || containsSeq pat cs

/-- Character class of `SAFE_PATH_PATTERN` from `security.ts` (letters,
digits, dot, underscore, slash, hyphen). -/
def safePathChar (c : Char) : Bool :=
  c.isAlpha || c.isDigit || c == '.' || c == '_' || c == '/' || c == '-'

/-- Test of `SAFE_PATH_PATTERN`: at least one character, all of them from
the class. -/
def safePathTest (s : String) : Bool :=
  !s.toList.isEmpty && s.toList.all safePathChar

/-- `validateFilePath(path)` from `security.ts`.  JS
`String.prototype.normalize()` is Unicode NFC normalisation — the identity
on ASCII strings, and in particular on everything `SAFE_PATH_PATTERN` can
accept — so it is modelled as the identity.  The falsy check `!path`
rejects exactly the empty string here. -/
def validateFilePath (path : String) : Except String String :=
  if path.toList.isEmpty then Except.error "Invalid file path"
  else
    let normalizedPath := path
    if containsSeq "..".toList normalizedPath.toList
        || containsSeq "~".toList normalizedPath.toList then
      Except.error "Path traversal detected"
    else if !safePathTest normalizedPath then
      Except.error "Invalid characters in file path"
    else Except.ok normalizedPath

lemma containsSeq_singleton_eq_contains (c : Char) (l : List Char) :
    containsSeq [c] l = l.contains c := by
  induction l with
  | nil => rfl
  | cons a l ih =>
      simp only [containsSeq, List.isPrefixOf, Bool.and_true, List.contains_cons]
      rw [ih]

/-- C7 counterexample: "a..b" is nonempty, drawn only from the safe class
(letters, digits, dot, underscore, slash, hyphen), contains no `..` path
segment and no `~`, yet `validateFilePath` rejects it, because the code
tests `includes("..")` on the whole string rather than per path segment. -/
theorem validateFilePath_class_counterexample :
    "a..b".toList.all safePathChar = true ∧
    validateFilePath "a..b" = Except.error "Path traversal detected" :=
  ⟨rfl, rfl⟩

/-- C7 amended: `validateFilePath` fails for every path that contains ".."
as a substring (hence for every path with a `..` segment) or "~" anywhere
(hence for a leading `~`), and succeeds returning the path itself for every
nonempty path drawn only from the safe class (letters, digits, dot,
underscore, slash, hyphen) that does not contain ".." as a substring. -/
theorem validateFilePath_policy (path : String) :
    ((containsSeq "..".toList path.toList = true ∨
      containsSeq "~".toList path.toList = true) →
      ∃ e, validateFilePath path = Except.error e) ∧
    ((path.toList.isEmpty = false ∧ path.toList.all safePathChar = true ∧
      containsSeq "..".toList path.toList = false) →
      validateFilePath path = Except.ok path) := by
  constructor
  · intro h
    by_cases he : path.toList.isEmpty = true
    · have he3 : path.data = [] := by simpa using he
      exact ⟨"Invalid file path", by simp [validateFilePath, he3]⟩
    · have he3 : ¬path.data = [] := by simpa using he
      rcases h with h | h
      · have h2 : containsSeq ['.', '.'] path.data = true := h
        exact ⟨"Path traversal detected", by simp [validateFilePath, he3, h2]⟩
      · have h2 : containsSeq ['~'] path.data = true := h
        exact ⟨"Path traversal detected", by simp [validateFilePath, he3, h2]⟩
  · rintro ⟨hempty, hall, hdd⟩
    have he3 : ¬path.data = [] := by simpa using hempty
    have hdd2 : containsSeq ['.', '.'] path.data = false := hdd
    have htilde : containsSeq "~".toList path.toList = false := by
      rw [show ("~".toList) = ['~'] from rfl, containsSeq_singleton_eq_contains]
      cases hcc : path.toList.contains '~' with
      | false => rfl
      | true =>
          have hmem : '~' ∈ path.toList := by simpa using hcc
          have hchar := (List.all_eq_true.mp hall) '~' hmem
          have hbad : safePathChar '~' = false := by decide
          rw [hbad] at hchar
          cases hchar
    have ht2 : containsSeq ['~'] path.data = false := htilde
    have hsp : safePathTest path = true := by
      simp only [safePathTest, Bool.and_eq_true, Bool.not_eq_true']
      simp
      exact ⟨he3, List.all_eq_true.mp hall⟩
    simp [validateFilePath, he3, hdd2, ht2, hsp]

/-- Witness for C7 (amended): a traversal path is rejected and a clean
relative path is accepted verbatim. -/
theorem validateFilePath_policy_witness :
    (∃ e, validateFilePath "../etc" = Except.error e) ∧
    validateFilePath "a/b.txt" = Except.ok "a/b.txt" :=
  ⟨(validateFilePath_policy "../etc").1 (Or.inl rfl),
   (validateFilePath_policy "a/b.txt").2 ⟨rfl, rfl, rfl⟩⟩

/-- Split a character list at the first occurrence of `sep`, returning the
parts before and after it, or `none` when `sep` does not occur. -/
def splitOnceSeq (sep : List Char) : List Char → Option (List Char × List Char)
  | [] => if sep.isEmpty then some ([], []) else none
  | c :: cs =>
      if sep.isPrefixOf (c :: cs) then some ([], (c :: cs).drop sep.length)
      else
        match splitOnceSeq sep cs with
        | some (pre, post) => some (c :: pre, post)
        | none => none

/-- The components of a parsed URL that `validateUrl` reads; `protocol`
keeps its trailing colon, as in the JS `URL` object. -/
structure ParsedURL where
  protocol : String
  hostname : String
  pathname : String
deriving Repr, DecidableEq

/-- Models the JS runtime's WHATWG `new URL(url)` parser on URLs of the
simple shape `scheme://host[/path]` (lowercase, no userinfo, port, query or
fragment), which covers all inputs of the claims; anything else is a parse
failure. -/
def parseURL (url : String) : Option ParsedURL :=
  match splitOnceSeq "://".toList url.toList with
  | none => none
  | some (schemeCs, rest) =>
      if schemeCs.isEmpty then none
      else
        let hostCs := rest.takeWhile (fun c => !(c == '/'))
        let pathCs := rest.drop hostCs.length
        if hostCs.isEmpty then none
        else
          some ⟨String.mk (schemeCs ++ [':']), String.mk hostCs,
                if pathCs.isEmpty then "/" else String.mk pathCs⟩

/-- JS `protocol.replace(":", "")`: remove the first colon. -/
def stripFirstColon (s : String) : String :=
  match splitOnceSeq [':'] s.toList with
  | some (pre, post) => String.mk (pre ++ post)
  | none => s

/-- `validateUrl(url, allowedSchemes)` from `security.ts`: parse, check the
scheme against the allowlist, then block literal private/internal
hostnames; every thrown error is caught and rethrown with an
`Invalid URL: ` prefix. -/
def validateUrl (url : String) (allowedSchemes : List String) :
    Except String ParsedURL :=
  match parseURL url with
  | none => Except.error "Invalid URL: Invalid URL"
  | some parsed =>
      if !allowedSchemes.contains (stripFirstColon parsed.protocol) then
        Except.error ("Invalid URL: URL scheme not allowed: " ++ parsed.protocol)
      else if parsed.hostname == "localhost" || parsed.hostname == "127.0.0.1"
          || jsStartsWith parsed.hostname "192.168."
          || jsStartsWith parsed.hostname "10."
          || jsStartsWith parsed.hostname "172." then
        Except.error "Invalid URL: Access to private/internal URLs not allowed"
      else Except.ok parsed

/-- C8: with `allowedSchemes = [http, https]`, `validateUrl` rejects
`ftp://example.com` (scheme outside the set), rejects `https://127.0.0.1/x`
and `https://192.168.1.5/x` (literal private hostnames), and accepts
`https://example.com/x` returning the parsed URL.  The final conjunct shows
that hostnames are compared as literal strings only: the non-IP host
`172.evil.example` is blocked purely by its textual `172.` prefix. -/
theorem validateUrl_examples :
    validateUrl "ftp://example.com" ["http", "https"]
      = Except.error "Invalid URL: URL scheme not allowed: ftp:" ∧
    validateUrl "https://127.0.0.1/x" ["http", "https"]
      = Except.error "Invalid URL: Access to private/internal URLs not allowed" ∧
    validateUrl "https://192.168.1.5/x" ["http", "https"]
      = Except.error "Invalid URL: Access to private/internal URLs not allowed" ∧
    validateUrl "https://example.com/x" ["http", "https"]
      = Except.ok ⟨"https:", "example.com", "/x"⟩ ∧
    validateUrl "https://172.evil.example/x" ["http", "https"]
      = Except.error "Invalid URL: Access to private/internal URLs not allowed" :=
  ⟨rfl, rfl, rfl, rfl, rfl⟩

/-- `process.env`, a partial map from variable names to values. -/
def Env : Type := String → Option String

/-- `getEnvVar(key, defaultValue?)` from `config.ts`. -/
def getEnvVar (env : Env) (key : String) (defaultValue : Option String) :
    Except String String :=
  match env key with
  | none =>
      match defaultValue with
      | none => Except.error ("Environment variable " ++ key ++ " is required")
      | some d => Except.ok d
  | some v => Except.ok v

/-- `getEnvNumber(key, defaultValue)` from `config.ts`; JS `Number(value)`
is modelled by integer parsing (`String.toInt?`), with a parse failure
playing the role of `NaN`. -/
def getEnvNumber (env : Env) (key : String) (defaultValue : Int) :
    Except String Int :=
  match env key with
  | none => Except.ok defaultValue
  | some v =>
      match v.toInt? with
      | none =>
          Except.error ("Environment variable " ++ key
            ++ " must be a number, got: " ++ v)
      | some n => Except.ok n

/-- The `Config` record from `config.ts`. -/
structure Config where
  port : Int
  host : String
  nodeEnv : String
  logLevel : String
  mcpEndpoint : String
  healthEndpoint : String
  version : String
  name : String
  enableAuth : Bool
  apiKey : Option String
  enableRateLimit : Bool
  maxRequestsPerMinute : Int
  enableRequestLogging : Bool
  trustedOrigins : List String
deriving Repr, DecidableEq

/-- `createConfig()` from `config.ts`; `version` and `name` are the
`package.json` values.  Mirrors the source order: NODE_ENV validation,
field construction (with `API_KEY` read raw from the environment and
`TRUSTED_ORIGINS` split on commas with empty pieces filtered), then
LOG_LEVEL and PORT validation. -/
def createConfig (env : Env) : Except String Config := do
  let nodeEnv ← getEnvVar env "NODE_ENV" (some "development")
  if !(["development", "production", "test"].contains nodeEnv) then
    throw ("Invalid NODE_ENV: " ++ nodeEnv
      ++ ". Must be development, production, or test")
  let port ← getEnvNumber env "PORT" 8080
  let host ← getEnvVar env "HOST" (some "localhost")
  let logLevel ← getEnvVar env "LOG_LEVEL"
    (some (if nodeEnv == "production" then "info" else "debug"))
  let mcpEndpoint ← getEnvVar env "MCP_ENDPOINT" (some "/mcp")
  let healthEndpoint ← getEnvVar env "HEALTH_ENDPOINT" (some "/health")
  let enableAuthStr ← getEnvVar env "ENABLE_AUTH" (some "false")
  let enableRateLimitStr ← getEnvVar env "ENABLE_RATE_LIMIT" (some "true")
  let maxRequestsPerMinute ← getEnvNumber env "MAX_REQUESTS_PER_MINUTE" 100
  let enableRequestLoggingStr ← getEnvVar env "ENABLE_REQUEST_LOGGING" (some "true")
  let trustedOriginsStr ← getEnvVar env "TRUSTED_ORIGINS" (some "")
  let config : Config :=
    ⟨port, host, nodeEnv, logLevel, mcpEndpoint, healthEndpoint,
     "1.0.0", "fastify-mcp-server-boilerplate",
     enableAuthStr == "true", env "API_KEY", enableRateLimitStr == "true",
     maxRequestsPerMinute, enableRequestLoggingStr == "true",
     (jsSplitChar trustedOriginsStr ',').filter (fun s => !s.toList.isEmpty)⟩
  let validLogLevels := ["trace", "debug", "info", "warn", "error", "fatal"]
  if !(validLogLevels.contains config.logLevel) then
    throw ("Invalid LOG_LEVEL: " ++ config.logLevel
      ++ ". Must be one of: trace, debug, info, warn, error, fatal")
  if config.port < 1 || config.port > 65535 then
    throw ("Invalid PORT: " ++ toString config.port
      ++ ". Must be between 1 and 65535")
  pure config

/-- Environment with authentication enabled and no API key configured. -/
def envAuthNoKey : Env := fun k => if k = "ENABLE_AUTH" then some "true" else none

/-- The configuration `createConfig` actually produces under
`envAuthNoKey`. -/
def cfgAuthNoKey : Config :=
  ⟨8080, "localhost", "development", "debug", "/mcp", "/health",
   "1.0.0", "fastify-mcp-server-boilerplate",
   true, none, true, 100, true, []⟩

/-- The middleware `SecurityConfig` carries the security fields of the
loaded app config (same field names in `middleware.ts`). -/
def toSecurityConfig (c : Config) : SecurityConfig :=
  ⟨c.enableAuth, c.apiKey, c.enableRateLimit, c.maxRequestsPerMinute.toNat,
   c.enableRequestLogging, c.trustedOrigins⟩

/-- C9 counterexample: with `ENABLE_AUTH=true` and `API_KEY` unset,
configuration construction does not fail — `createConfig` returns a config
with `enableAuth = true` and `apiKey` undefined, so the process goes on to
accept traffic. -/
theorem createConfig_authNoKey_counterexample :
    createConfig envAuthNoKey = Except.ok cfgAuthNoKey := rfl

/-- C9 amended: constructing the configuration with authentication enabled
but no API key succeeds (startup validation only rejects bad NODE_ENV,
LOG_LEVEL or PORT), yielding `enableAuth = true` and `apiKey = none`;
requests are then processed under that config, fail-closed: every request
to the protected path is rejected by the auth guard (401 or 403), since no
bearer token can equal the missing key. -/
theorem createConfig_authNoKey_failClosed (cfg : Config)
    (hcfg : createConfig envAuthNoKey = Except.ok cfg)
    (request : Request) (hurl : jsStartsWith request.url "/mcp" = true)
    (reply : ReplyState) (log : List SecurityEvent) (ts : String) :
    cfg.enableAuth = true ∧ cfg.apiKey = none ∧
    (authMiddleware request reply (toSecurityConfig cfg)
        log ts).1.rejection.isSome = true := by
  have h0 : createConfig envAuthNoKey = Except.ok cfgAuthNoKey := rfl
  rw [h0] at hcfg
  injection hcfg with h1
  subst h1
  refine ⟨rfl, rfl, ?_⟩
  cases ha : request.authorization with
  | none =>
      simp [authMiddleware, hurl, toSecurityConfig, cfgAuthNoKey, ha,
        ReplyState.reject]
  | some h =>
      by_cases hb : jsStartsWith h "Bearer " = true
      · simp [authMiddleware, hurl, toSecurityConfig, cfgAuthNoKey, ha, hb,
          ReplyState.reject]
      · have hb2 : jsStartsWith h "Bearer " = false := by simpa using hb
        simp [authMiddleware, hurl, toSecurityConfig, cfgAuthNoKey, ha, hb2,
          ReplyState.reject]

/-- Witness for C9 (amended) at the concrete config produced under
`envAuthNoKey` and a concrete protected-path request. -/
theorem createConfig_authNoKey_failClosed_witness :
    cfgAuthNoKey.enableAuth = true ∧ cfgAuthNoKey.apiKey = none ∧
    (authMiddleware reqMcpW ReplyState.initial (toSecurityConfig cfgAuthNoKey)
        [] "t").1.rejection.isSome = true :=
  createConfig_authNoKey_failClosed cfgAuthNoKey rfl reqMcpW rfl
    ReplyState.initial [] "t"
